import Mathlib

/-!
Verification of the gblib cooperative task-execution facility
(`gb::Task` in `include/glitchybyte/gb/lib/Task.hpp` and
`gb::TaskRunner` in `include/gb/TaskRunner.hpp`), as a shallow
embedding in Lean 4.

Every definition below is translated directly from the C++ source.
Per-task mutable fields become a `Task` record; each member function
becomes a pure function from the record to the record (or a reader).
Condition-variable waits are embedded as their wait predicates: a wait
returns exactly when its predicate holds, so a predicate that can never
become true along a trace models a call that never returns.
-/

namespace gb

/-- States of a task, from the source: `enum class State : int { Created, Started, Canceled, Finished }`. -/
inductive State where
  | Created
  | Started
  | Canceled
  | Finished
deriving DecidableEq, Repr

/-- The mutable per-object fields of class `gb::Task`:
`taskId` (`uint64_t const`), `state` (`std::atomic<State>`, initially
`Created`), `_shouldCancel` (`std::atomic<bool>`, initially `false`) and
the `runner` back-pointer (modelled by whether it has been set).
The `std::thread` handle and the lock/condition variable have no
state visible to the embedded operations. -/
structure Task where
  taskId : Nat
  state : State
  shouldCancelFlag : Bool
  hasRunner : Bool
deriving DecidableEq, Repr

/-- Constructor `Task::Task()`: `taskId(nextTaskId++)`, `state { State::Created }`,
`_shouldCancel { false }`, `runner { nullptr }`. The argument is the
value read from the process-wide counter `nextTaskId`. -/
def Task.new (id : Nat) : Task :=
  { taskId := id, state := State.Created, shouldCancelFlag := false, hasRunner := false }

/-- Source `Task::getState()`: returns the current state. -/
def Task.getState (t : Task) : State :=
  t.state

/-- Source `Task::cancel()`: under `stateLock`, `if (state != State::Started) return;
_shouldCancel = true;`. -/
def Task.cancel (t : Task) : Task :=
  if t.state ≠ State.Started then t
  else { t with shouldCancelFlag := true }

/-- Source `Task::isStopped()`: `(state == Canceled) || (state == Finished)`. -/
def Task.isStopped (t : Task) : Bool :=
  (t.state = State.Canceled) ∨ (t.state = State.Finished)

/-- Source `Task::started()`: under `stateLock`, `if (state != State::Created) return;
state = State::Started; stateChangedSignal.notify_all();`. -/
def Task.started (t : Task) : Task :=
  if t.state ≠ State.Created then t
  else { t with state := State.Started }

/-- Source `Task::shouldCancel()`: reads `_shouldCancel`. -/
def Task.shouldCancel (t : Task) : Bool :=
  t.shouldCancelFlag

/-- Source `Task::setTaskRunner(newRunner)`: `runner = newRunner;`. -/
def Task.setTaskRunner (t : Task) : Task :=
  { t with hasRunner := true }

/-- Source `Task::canceled()`: under `stateLock`, `if (state != State::Started) return;
state = State::Canceled; stateChangedSignal.notify_all();`. -/
def Task.canceled (t : Task) : Task :=
  if t.state ≠ State.Started then t
  else { t with state := State.Canceled }

/-- Source `Task::finished()`: under `stateLock`, `if (state != State::Started) return;
state = State::Finished; stateChangedSignal.notify_all();`. -/
def Task.finished (t : Task) : Task :=
  if t.state ≠ State.Started then t
  else { t with state := State.Finished }

/-- Wait predicate of `Task::awaitStop()`:
`stateChangedSignal.wait(lock, [this]{ return isStopped(); })` — the call
returns exactly when this predicate holds. -/
def Task.awaitStopReturns (t : Task) : Bool :=
  t.isStopped

/-- Wait predicate of `Task::awaitStart()`:
`stateChangedSignal.wait(lock, [this]{ return state != State::Created; })`. -/
def Task.awaitStartReturns (t : Task) : Bool :=
  t.state ≠ State.Created

/-- A state is terminal when it is `Canceled` or `Finished`. -/
def State.isTerminal (s : State) : Bool :=
  (s = State.Canceled) ∨ (s = State.Finished)

/-- The state-mutating member functions of `Task`, used to quantify over
arbitrary call sequences. -/
inductive TaskOp where
  | opStarted
  | opCancel
  | opCanceled
  | opFinished
deriving DecidableEq, Repr

/-- Apply one member-function call to a task. -/
def applyOp (op : TaskOp) (t : Task) : Task :=
  match op with
  | TaskOp.opStarted => t.started
  | TaskOp.opCancel => t.cancel
  | TaskOp.opCanceled => t.canceled
  | TaskOp.opFinished => t.finished

/-- Apply a sequence of member-function calls, oldest first. -/
def applyOps (ops : List TaskOp) (t : Task) : Task :=
  ops.foldl (fun t op => applyOp op t) t

/-- Signature of one member function: name, parameter types, return type. -/
structure MethodSig where
  mname : String
  params : List String
  ret : String
deriving DecidableEq, Repr

/-- The member functions declared by class `gb::Task` in the source, in
declaration order (constructor and destructor omitted). Transcribed from
the class body: public `getState`, `cancel`, `awaitStop`, `isStopped`;
protected `action`, `getTaskRunner`, `started`, `shouldCancel`; private
`setTaskRunner`, `canceled`, `finished`, `awaitState`, `awaitStart`. -/
def taskMethodTable : List MethodSig :=
  [ { mname := "getState", params := [], ret := "State" },
    { mname := "cancel", params := [], ret := "void" },
    { mname := "awaitStop", params := [], ret := "void" },
    { mname := "isStopped", params := [], ret := "bool" },
    { mname := "action", params := [], ret := "void" },
    { mname := "getTaskRunner", params := [], ret := "TaskRunner*" },
    { mname := "started", params := [], ret := "void" },
    { mname := "shouldCancel", params := [], ret := "bool" },
    { mname := "setTaskRunner", params := ["TaskRunner*"], ret := "void" },
    { mname := "canceled", params := [], ret := "void" },
    { mname := "finished", params := [], ret := "void" },
    { mname := "awaitState", params := ["State"], ret := "void" },
    { mname := "awaitStart", params := [], ret := "void" } ]

/-- Semantics of `std::atomic<bool>::compare_exchange_strong(expected, desired)`:
given the atomic's current value and the `expected` lvalue, returns the
new current value, the new value of `expected`, and success. On success
the atomic takes `desired` and `expected` is untouched; on failure the
atomic is unchanged and its current value is written into `expected`. -/
def compareExchangeStrong (current expected desired : Bool) : Bool × Bool × Bool :=
  if current = expected then (desired, expected, true)
  else (current, current, false)

/-- The process-wide global of `lib/constants.hpp` that `TaskRunner` uses:
`inline constinit bool _true { true };` (a mutable namespace-scope
variable, "normally used with atomic compares"). -/
structure Globals where
  _true : Bool
deriving DecidableEq, Repr

/-- Initial value of the globals at program start. -/
def Globals.init : Globals := { _true := true }

/-- The fields of class `gb::TaskRunner`: `_isActive` (`std::atomic<bool>`,
initially `true`); `tasks` (`std::set<std::shared_ptr<Task>>` ordered by
`taskComparator`, i.e. by `taskId <` — modelled as the list of registered
task ids in iteration order); `finishingTasks`
(`std::vector<std::shared_ptr<Task>>`, ids in push order);
`threadControllerShouldExit`; and a count of worker threads spawned by
`start`, which makes the `std::thread` spawn effect observable. -/
structure TaskRunner where
  _isActive : Bool
  tasks : List Nat
  finishingTasks : List Nat
  threadControllerShouldExit : Bool
  spawnedThreads : Nat
deriving DecidableEq, Repr

/-- Constructor `TaskRunner::TaskRunner()` (the reaper thread it launches is modelled by
the explicit `reap` step below). -/
def TaskRunner.new : TaskRunner :=
  { _isActive := true, tasks := [], finishingTasks := [],
    threadControllerShouldExit := false, spawnedThreads := 0 }

/-- The shared `Task` objects (`std::shared_ptr<Task>`), keyed by `taskId`.
Caller and runner alias the same objects, so every mutation goes through
this heap. -/
def heapFind (h : List Task) (i : Nat) : Option Task :=
  h.find? (fun t => t.taskId = i)

/-- Mutate the shared task object with id `i` through one of its
synchronized member functions. -/
def heapUpdate (h : List Task) (i : Nat) (f : Task → Task) : List Task :=
  h.map (fun t => if t.taskId = i then f t else t)

/-- Semantics of `std::set` insert under `taskComparator` (`lhs->taskId < rhs->taskId`):
keeps the list ordered by id; returns `none` when an element with the same
id is already present (insertion failure). -/
def insertId : List Nat → Nat → Option (List Nat)
  | [], i => some [i]
  | x :: xs, i =>
    if i < x then some (i :: x :: xs)
    else if x < i then (insertId xs i).map (fun l => x :: l)
    else none

/-- Semantics of `std::set::erase` of the task with id `i` (`tasks.erase(task)`). -/
def removeId (ts : List Nat) (i : Nat) : List Nat :=
  ts.filter (fun x => x ≠ i)

/-- Whole-system state: the shared task objects, the runner, and the
process-wide globals. -/
structure Sys where
  heap : List Task
  runner : TaskRunner
  globals : Globals
deriving DecidableEq, Repr

/-- Source `TaskRunner::start(task)` up to the point the calling thread blocks in
`task->awaitStart()`: under `tasksLock`, fail if not active; insert into
`tasks` and fail if the id is already present; otherwise set the task's
runner back-pointer and spawn its worker thread. -/
def Sys.start (s : Sys) (i : Nat) : Sys × Bool :=
  if !s.runner._isActive then (s, false)
  else
    match insertId s.runner.tasks i with
    | none => (s, false)
    | some ts =>
        ({ s with
            heap := heapUpdate s.heap i Task.setTaskRunner,
            runner := { s.runner with
                tasks := ts,
                spawnedThreads := s.runner.spawnedThreads + 1 } },
          true)

/-- The worker thread of task `i` running the `started()` call inside its
`action()`; once this has happened, `awaitStart()`'s predicate holds and the
blocked `start()` call returns. -/
def Sys.threadStarted (s : Sys) (i : Nat) : Sys :=
  { s with heap := heapUpdate s.heap i Task.started }

/-- The trampoline `start` installs on the worker thread, after `action()`
returns: `task->finished(); lock(threadControllerLock);
finishingTasks.push_back(task); threadControllerWakeUpSignal.notify_one();`. -/
def Sys.threadFinish (s : Sys) (i : Nat) : Sys :=
  { s with
      heap := heapUpdate s.heap i Task.finished,
      runner := { s.runner with
          finishingTasks := s.runner.finishingTasks ++ [i] } }

/-- Source `TaskRunner::cancelAll()`: under `tasksLock`,
`for (task : tasks) task->cancel();`. -/
def Sys.cancelAll (s : Sys) : Sys :=
  { s with
      heap := s.runner.tasks.foldl (fun h i => heapUpdate h i Task.cancel) s.heap }

/-- One wake-up of the reaper thread with work available: joins every thread
in `finishingTasks`, removes each corresponding task from `tasks`
(`removeTask`, which signals `isEmptySignal` when the set drains), and
clears `finishingTasks`. -/
def Sys.reap (s : Sys) : Sys :=
  { s with
      runner := { s.runner with
          tasks := s.runner.finishingTasks.foldl removeId s.runner.tasks,
          finishingTasks := [] } }

/-- Wait predicate of `TaskRunner::awaitAll()`:
`isEmptySignal.wait(lock, [this]{ return tasks.empty(); })`. -/
def Sys.awaitAllReturns (s : Sys) : Bool :=
  s.runner.tasks.isEmpty

/-- Source `TaskRunner::shutdown()` up to the blocking drain: under `tasksLock`,
`if (!_isActive.compare_exchange_strong(_true, false)) return;` then
`for (task : tasks) task->cancel();`. The second component reports whether
the compare-exchange succeeded, i.e. whether this call performs the
cancellation/draining work (the subsequent `isEmptySignal.wait` and the
reaper-thread join are blocking and are modelled by their predicates). -/
def Sys.shutdownStep (s : Sys) : Sys × Bool :=
  let r := compareExchangeStrong s.runner._isActive s.globals._true false
  let s1 : Sys :=
    { s with
        runner := { s.runner with _isActive := r.1 },
        globals := { _true := r.2.1 } }
  if !r.2.2 then (s1, false)
  else
    ({ s1 with
        heap := s1.runner.tasks.foldl (fun h i => heapUpdate h i Task.cancel) s1.heap },
      true)

/-- A `start()` call together with the worker thread reaching `started()`:
`start` returns to its caller only after this, so this is the system state
when `start` has returned `true`. -/
def startAndRun (s : Sys) (i : Nat) : Sys :=
  Sys.threadStarted (Sys.start s i).1 i

/-- Fresh system with `n` constructed tasks (ids `0..n-1` drawn from
`nextTaskId`), a new runner, and pristine globals. -/
def initSys (n : Nat) : Sys :=
  { heap := (List.range n).map Task.new,
    runner := TaskRunner.new,
    globals := Globals.init }

/-- The scripted execution behind the `canCancelAllTasks` scenario: start
`n` cooperative polling tasks, call `cancelAll()`, let every task's loop
observe `shouldCancel()` and return (trampoline: `finished()` + enqueue),
then let the reaper join and remove them all, after which `awaitAll()`'s
predicate holds and it returns. -/
def cancelScenario (n : Nat) : Sys :=
  let s1 := (List.range n).foldl startAndRun (initSys n)
  let s2 := Sys.cancelAll s1
  let s3 := (List.range n).foldl Sys.threadFinish s2
  Sys.reap s3

/-- The value a cooperatively cancelled task ends with in the scenario
above: cancellation flag raised, but terminal state `Finished`. -/
def drainedTask (i : Nat) : Task :=
  { taskId := i, state := State.Finished, shouldCancelFlag := true, hasRunner := true }

/-- Helper for stating heap evolutions: apply `f` to every task whose id is
listed in `l`. -/
def applyToIds (h : List Task) (l : List Nat) (f : Task → Task) : List Task :=
  h.map (fun t => if t.taskId ∈ l then f t else t)

/-- A system whose runner has already gone inactive (e.g. after a completed
shutdown), with pristine globals. -/
def inactiveRunnerSys : Sys :=
  { heap := [],
    runner := { TaskRunner.new with _isActive := false },
    globals := Globals.init }

/-- Sequence of `n` tasks constructed in order while `nextTaskId` holds `c`: each
construction reads the counter and post-increments it
(`taskId(nextTaskId++)`). -/
def mkTasks : Nat → Nat → List Task
  | _, 0 => []
  | c, n + 1 => Task.new c :: mkTasks (c + 1) n

end gb

open gb

theorem applyOps_nil (t : Task) : applyOps [] t = t := rfl

theorem applyOps_cons (op : TaskOp) (ops : List TaskOp) (t : Task) :
    applyOps (op :: ops) t = applyOps ops (applyOp op t) := rfl

theorem applyOp_state_ne_created {t : Task} (op : TaskOp)
    (h : t.state ≠ State.Created) : (applyOp op t).state ≠ State.Created := by
  cases op <;>
    simp only [applyOp, Task.started, Task.cancel, Task.canceled, Task.finished] <;>
    split <;> simp_all

theorem applyOp_terminal_eq {t : Task} (op : TaskOp)
    (h : t.state.isTerminal = true) : applyOp op t = t := by
  have hs : t.state = State.Canceled ∨ t.state = State.Finished := by
    simpa [State.isTerminal] using h
  cases op <;>
    simp only [applyOp, Task.started, Task.cancel, Task.canceled, Task.finished] <;>
    split <;> rcases hs with hs | hs <;> simp_all

theorem applyOps_state_ne_created {t : Task} (ops : List TaskOp)
    (h : t.state ≠ State.Created) : (applyOps ops t).state ≠ State.Created := by
  induction ops generalizing t with
  | nil => simpa [applyOps_nil] using h
  | cons op ops ih =>
      rw [applyOps_cons]
      exact ih (applyOp_state_ne_created op h)

theorem applyOps_terminal_eq {t : Task} (ops : List TaskOp)
    (h : t.state.isTerminal = true) : applyOps ops t = t := by
  induction ops generalizing t with
  | nil => exact applyOps_nil t
  | cons op ops ih =>
      rw [applyOps_cons, applyOp_terminal_eq op h, ih h]

/-- C6: `cancel()` never modifies the state field: when the state is exactly
`Started` it only sets the cancellation-requested flag, and in every other
state (including `Created`) it changes nothing at all, so a cancellation
requested before the task is `Started` is dropped. -/
theorem task_cancel_never_changes_state (t : Task) :
    (Task.cancel t).state = t.state
    ∧ (t.state = State.Started → Task.cancel t = { t with shouldCancelFlag := true })
    ∧ (t.state ≠ State.Started → Task.cancel t = t) := by
  refine ⟨?_, ?_, ?_⟩ <;> simp only [Task.cancel] <;> split <;> simp_all

theorem task_cancel_never_changes_state_witness :
    Task.cancel (Task.started (Task.new 0))
        = { Task.started (Task.new 0) with shouldCancelFlag := true }
    ∧ Task.cancel (Task.new 1) = Task.new 1 :=
  ⟨(task_cancel_never_changes_state (Task.started (Task.new 0))).2.1 (by decide),
   (task_cancel_never_changes_state (Task.new 1)).2.2 (by decide)⟩

/-- C7: the state is `Created` at construction and moves only forward: under
every sequence of calls to `started()`, `cancel()`, `canceled()` and
`finished()`, the state never returns to `Created` after leaving it, and once
terminal (`Canceled` or `Finished`) the task never changes again. -/
theorem task_state_forward_only (c : Nat) (ops : List TaskOp) (t : Task) :
    (Task.new c).state = State.Created
    ∧ (t.state ≠ State.Created → (applyOps ops t).state ≠ State.Created)
    ∧ (t.state.isTerminal = true → applyOps ops t = t) :=
  ⟨rfl, fun h => applyOps_state_ne_created ops h, fun h => applyOps_terminal_eq ops h⟩

theorem task_state_forward_only_witness :
    (Task.new 5).state = State.Created
    ∧ (applyOps [TaskOp.opCancel] (Task.started (Task.new 0))).state ≠ State.Created
    ∧ applyOps [TaskOp.opStarted, TaskOp.opCanceled]
        (Task.finished (Task.started (Task.new 0)))
        = Task.finished (Task.started (Task.new 0)) :=
  ⟨(task_state_forward_only 5 [] (Task.new 5)).1,
   (task_state_forward_only 0 [TaskOp.opCancel] (Task.started (Task.new 0))).2.1 (by decide),
   (task_state_forward_only 0 [TaskOp.opStarted, TaskOp.opCanceled]
      (Task.finished (Task.started (Task.new 0)))).2.2 (by decide)⟩

/-- C8: `started()` transitions `Created → Started` exactly once and is a
no-op whenever the current state is not `Created`; repeated calls never
change the state again. -/
theorem task_started_exactly_once (t : Task) :
    (t.state = State.Created → Task.started t = { t with state := State.Started })
    ∧ (t.state ≠ State.Created → Task.started t = t)
    ∧ Task.started (Task.started t) = Task.started t := by
  refine ⟨?_, ?_, ?_⟩ <;> simp only [Task.started] <;> split <;> (try split) <;> simp_all

theorem task_started_exactly_once_witness :
    Task.started (Task.new 0) = { Task.new 0 with state := State.Started }
    ∧ Task.started (Task.finished (Task.started (Task.new 1)))
        = Task.finished (Task.started (Task.new 1)) :=
  ⟨(task_started_exactly_once (Task.new 0)).1 (by decide),
   (task_started_exactly_once (Task.finished (Task.started (Task.new 1)))).2.1 (by decide)⟩

/-- C2 counterexample: the `Task` interface declares exactly one member named
`awaitStop`; it takes no parameter and returns nothing, so no timed variant
taking a duration and returning whether it was signaled exists. -/
theorem task_has_no_timed_awaitStop :
    taskMethodTable.countP (fun m => m.mname = "awaitStop") = 1
    ∧ taskMethodTable.countP (fun m => m.mname = "awaitStop" ∧ m.params ≠ []) = 0
    ∧ taskMethodTable.countP (fun m => m.mname = "awaitStop" ∧ m.ret = "bool") = 0 := by
  decide

/-- C2 amended: `Task` provides a single, unconditional `awaitStop`: it is the
only member of that name, takes no parameters, and its wait predicate holds
exactly when the task is terminal (`Canceled` or `Finished`), so the call
blocks until the task is terminal. -/
theorem task_awaitStop_single_unconditional (t : Task) :
    taskMethodTable.countP (fun m => m.mname = "awaitStop") = 1
    ∧ (∀ m ∈ taskMethodTable, m.mname = "awaitStop" → m.params = [] ∧ m.ret = "void")
    ∧ (Task.awaitStopReturns t = true
        ↔ (t.state = State.Canceled ∨ t.state = State.Finished)) := by
  refine ⟨by decide, by decide, ?_⟩
  simp [Task.awaitStopReturns, Task.isStopped]

theorem task_awaitStop_single_unconditional_witness :
    taskMethodTable.countP (fun m => m.mname = "awaitStop") = 1
    ∧ (MethodSig.mk "awaitStop" [] "void").params = []
    ∧ (Task.awaitStopReturns (Task.finished (Task.started (Task.new 0))) = true
        ↔ ((Task.finished (Task.started (Task.new 0))).state = State.Canceled
            ∨ (Task.finished (Task.started (Task.new 0))).state = State.Finished)) :=
  ⟨(task_awaitStop_single_unconditional (Task.new 0)).1,
   ((task_awaitStop_single_unconditional (Task.new 0)).2.1
      (MethodSig.mk "awaitStop" [] "void") (by decide) rfl).1,
   (task_awaitStop_single_unconditional
      (Task.finished (Task.started (Task.new 0)))).2.2⟩

theorem applyOp_created_eq {t : Task} (op : TaskOp)
    (hc : t.state = State.Created) (hop : op ≠ TaskOp.opStarted) :
    applyOp op t = t := by
  cases op <;>
    simp_all [applyOp, Task.cancel, Task.canceled, Task.finished, hc]

/-- C10: if a task's `action()` never calls `started()`, the state stays
`Created` under every sequence of the other operations — in particular the
coordinator's `finished()` call after `action()` returns is a no-op — and the
wait predicate of `awaitStart()` (which `TaskRunner::start` blocks on before
returning) never holds, so `start()` never returns to its caller. -/
theorem start_never_returns_without_started (t : Task) (ops : List TaskOp)
    (hc : t.state = State.Created) (hops : TaskOp.opStarted ∉ ops) :
    Task.finished t = t
    ∧ (applyOps ops t).state = State.Created
    ∧ (applyOps ops t).awaitStartReturns = false := by
  have key : applyOps ops t = t := by
    induction ops with
    | nil => exact applyOps_nil t
    | cons op ops ih =>
        have hop : op ≠ TaskOp.opStarted := fun h => hops (h ▸ List.mem_cons_self op ops)
        have hops2 : TaskOp.opStarted ∉ ops := fun h => hops (List.mem_cons_of_mem op h)
        rw [applyOps_cons, applyOp_created_eq op hc hop]
        exact ih hops2
  refine ⟨applyOp_created_eq TaskOp.opFinished hc (by simp), ?_, ?_⟩
  · rw [key]; exact hc
  · rw [key]; simp [Task.awaitStartReturns, hc]

theorem start_never_returns_without_started_witness :
    Task.finished (Task.new 0) = Task.new 0
    ∧ (applyOps [TaskOp.opFinished, TaskOp.opCancel] (Task.new 0)).state = State.Created
    ∧ (applyOps [TaskOp.opFinished, TaskOp.opCancel] (Task.new 0)).awaitStartReturns
        = false :=
  start_never_returns_without_started (Task.new 0)
    [TaskOp.opFinished, TaskOp.opCancel] (by decide) (by decide)

theorem insertId_none_iff {ts : List Nat} (i : Nat)
    (hs : List.Pairwise (· < ·) ts) : insertId ts i = none ↔ i ∈ ts := by
  induction ts with
  | nil => simp [insertId]
  | cons x xs ih =>
      have hx : ∀ y ∈ xs, x < y := fun y hy => (List.pairwise_cons.mp hs).1 y hy
      have hxs : List.Pairwise (· < ·) xs := (List.pairwise_cons.mp hs).2
      by_cases h1 : i < x
      · have hni : i ∉ xs := fun hi => absurd (hx i hi) (by omega)
        simp [insertId, h1]
        constructor
        · omega
        · exact hni
      · by_cases h2 : x < i
        · have hne : i ≠ x := by omega
          simp [insertId, h1, h2, Option.map_eq_none, ih hxs, hne]
        · have heq : i = x := by omega
          simp [insertId, h1, h2, heq]

/-- C5: `start(task)` fails (returns `false`) exactly when the runner is not
active or a task with the same id is already registered; on the
inactive-runner path the whole system is untouched — no thread is spawned
and the live set is unchanged — so once the active flag is `false` no new
task is ever registered. -/
theorem start_fails_iff_inactive_or_duplicate (s : Sys) (i : Nat)
    (hs : List.Pairwise (· < ·) s.runner.tasks) :
    (s.runner._isActive = false → Sys.start s i = (s, false))
    ∧ ((Sys.start s i).2 = false
        ↔ (s.runner._isActive = false ∨ i ∈ s.runner.tasks))
    ∧ (s.runner._isActive = false →
        (Sys.start s i).1.runner.tasks = s.runner.tasks
        ∧ (Sys.start s i).1.runner.spawnedThreads = s.runner.spawnedThreads) := by
  refine ⟨?_, ?_, ?_⟩
  · intro h
    simp [Sys.start, h]
  · by_cases ha : s.runner._isActive
    · rcases hins : insertId s.runner.tasks i with _ | ts
      · have : i ∈ s.runner.tasks := (insertId_none_iff i hs).mp hins
        simp [Sys.start, ha, hins, this]
      · have : i ∉ s.runner.tasks := fun hm =>
          by simp [(insertId_none_iff i hs).mpr hm] at hins
        simp [Sys.start, ha, hins, this]
    · have ha2 : s.runner._isActive = false := by simpa using ha
      simp [Sys.start, ha2]
  · intro h
    simp [Sys.start, h]

theorem start_fails_iff_inactive_or_duplicate_witness :
    Sys.start inactiveRunnerSys 1 = (inactiveRunnerSys, false)
    ∧ ((Sys.start inactiveRunnerSys 1).2 = false
        ↔ (inactiveRunnerSys.runner._isActive = false
            ∨ 1 ∈ inactiveRunnerSys.runner.tasks)) :=
  ⟨(start_fails_iff_inactive_or_duplicate inactiveRunnerSys 1 (by decide)).1 (by decide),
   (start_fails_iff_inactive_or_duplicate inactiveRunnerSys 1 (by decide)).2.1⟩

/-- C4: `shutdown()` on a runner whose active flag is already `false` (with
the global `gb::_true` still holding `true`) returns without performing any
cancellation or reaper join and leaves the heap and the runner untouched —
but the failed `compare_exchange_strong` stores `false` into the
process-wide global `gb::_true`, which afterwards no longer holds `true`. -/
theorem shutdown_inactive_clobbers_global (s : Sys)
    (hi : s.runner._isActive = false) (hg : s.globals._true = true) :
    (Sys.shutdownStep s).2 = false
    ∧ (Sys.shutdownStep s).1.heap = s.heap
    ∧ (Sys.shutdownStep s).1.runner = s.runner
    ∧ (Sys.shutdownStep s).1.globals._true = false := by
  obtain ⟨h, ⟨a, ts, fin, ex, sp⟩, ⟨g⟩⟩ := s
  simp only at hi hg
  subst hi hg
  simp [Sys.shutdownStep, compareExchangeStrong]

theorem shutdown_inactive_clobbers_global_witness :
    (Sys.shutdownStep inactiveRunnerSys).2 = false
    ∧ (Sys.shutdownStep inactiveRunnerSys).1.heap = inactiveRunnerSys.heap
    ∧ (Sys.shutdownStep inactiveRunnerSys).1.runner = inactiveRunnerSys.runner
    ∧ (Sys.shutdownStep inactiveRunnerSys).1.globals._true = false :=
  shutdown_inactive_clobbers_global inactiveRunnerSys (by decide) (by decide)

/-- C3 counterexample: a second call to `shutdown()` does not leave all
observable state the same as after the first call — on a fresh runner,
shutting down twice yields a different system state than shutting down once
(the global `gb::_true` has been overwritten). -/
theorem shutdown_second_call_changes_state :
    (Sys.shutdownStep (Sys.shutdownStep (initSys 0)).1).1
      ≠ (Sys.shutdownStep (initSys 0)).1 := by
  decide

/-- C3 amended: with pristine globals, only the first `shutdown()` call
performs the work: it flips the active flag from `true` to `false` and
cancels every registered task, leaving `gb::_true` untouched; a second call
performs no cancellation or draining, but it is not a complete no-op —
through the failed `compare_exchange_strong` it stores `false` into the
process-wide global `gb::_true`, and that is the only state it changes. -/
theorem shutdown_one_shot (s : Sys)
    (ha : s.runner._isActive = true) (hg : s.globals._true = true) :
    (Sys.shutdownStep s).2 = true
    ∧ (Sys.shutdownStep s).1.runner._isActive = false
    ∧ (Sys.shutdownStep s).1.runner.tasks = s.runner.tasks
    ∧ (Sys.shutdownStep s).1.heap
        = s.runner.tasks.foldl (fun h i => heapUpdate h i Task.cancel) s.heap
    ∧ (Sys.shutdownStep s).1.globals._true = true
    ∧ (Sys.shutdownStep (Sys.shutdownStep s).1).2 = false
    ∧ (Sys.shutdownStep (Sys.shutdownStep s).1).1
        = { (Sys.shutdownStep s).1 with globals := { _true := false } } := by
  obtain ⟨h, ⟨a, ts, fin, ex, sp⟩, ⟨g⟩⟩ := s
  simp only at ha hg
  subst ha hg
  simp [Sys.shutdownStep, compareExchangeStrong]

theorem shutdown_one_shot_witness :
    (Sys.shutdownStep (initSys 0)).2 = true
    ∧ (Sys.shutdownStep (initSys 0)).1.runner._isActive = false
    ∧ (Sys.shutdownStep (Sys.shutdownStep (initSys 0)).1).2 = false
    ∧ (Sys.shutdownStep (Sys.shutdownStep (initSys 0)).1).1
        = { (Sys.shutdownStep (initSys 0)).1 with globals := { _true := false } } :=
  ⟨(shutdown_one_shot (initSys 0) (by decide) (by decide)).1,
   (shutdown_one_shot (initSys 0) (by decide) (by decide)).2.1,
   (shutdown_one_shot (initSys 0) (by decide) (by decide)).2.2.2.2.2.1,
   (shutdown_one_shot (initSys 0) (by decide) (by decide)).2.2.2.2.2.2⟩

theorem applyToIds_nil (h : List Task) (f : Task → Task) :
    applyToIds h [] f = h := by
  simp [applyToIds]

theorem applyToIds_cons_of_update (h : List Task) (a : Nat) (l : List Nat)
    (f : Task → Task) (hid : ∀ t, (f t).taskId = t.taskId) (ha : a ∉ l) :
    applyToIds (heapUpdate h a f) l f = applyToIds h (a :: l) f := by
  simp only [applyToIds, heapUpdate, List.map_map]
  apply List.map_congr_left
  intro t _
  by_cases ht : t.taskId = a
  · simp [Function.comp, ht, hid, ha]
  · simp [Function.comp, ht]

theorem foldl_heapUpdate_eq_applyToIds (f : Task → Task)
    (hid : ∀ t, (f t).taskId = t.taskId) (l : List Nat) (hnd : l.Nodup)
    (h : List Task) :
    l.foldl (fun acc i => heapUpdate acc i f) h = applyToIds h l f := by
  induction l generalizing h with
  | nil => simp [applyToIds]
  | cons a l ih =>
      have ha : a ∉ l := (List.nodup_cons.mp hnd).1
      rw [List.foldl_cons, ih (List.nodup_cons.mp hnd).2,
        applyToIds_cons_of_update h a l f hid ha]

theorem applyToIds_range_map (u : Nat → Task) (hu : ∀ i, (u i).taskId = i)
    (n : Nat) (f : Task → Task) :
    applyToIds ((List.range n).map u) (List.range n) f
      = (List.range n).map (fun i => f (u i)) := by
  simp only [applyToIds, List.map_map]
  apply List.map_congr_left
  intro i hi
  simp [Function.comp, hu, List.mem_range.mp hi]

theorem heapUpdate_heapUpdate (h : List Task) (i : Nat) (f1 f2 : Task → Task)
    (hid : ∀ t, (f1 t).taskId = t.taskId) :
    heapUpdate (heapUpdate h i f1) i f2 = heapUpdate h i (fun t => f2 (f1 t)) := by
  simp only [heapUpdate, List.map_map]
  apply List.map_congr_left
  intro t _
  by_cases ht : t.taskId = i
  · simp [Function.comp, ht, hid]
  · simp [Function.comp, ht]

theorem insertId_append {ts : List Nat} {i : Nat} (hlt : ∀ y ∈ ts, y < i) :
    insertId ts i = some (ts ++ [i]) := by
  induction ts with
  | nil => simp [insertId]
  | cons x xs ih =>
      have hx : x < i := hlt x (List.mem_cons_self x xs)
      have h1 : ¬ i < x := by omega
      rw [insertId, if_neg h1, if_pos hx,
        ih (fun y hy => hlt y (List.mem_cons_of_mem x hy))]
      simp

theorem startAndRun_eq (s : Sys) (i : Nat)
    (ha : s.runner._isActive = true)
    (hlt : ∀ y ∈ s.runner.tasks, y < i) :
    startAndRun s i =
      { s with
          heap := heapUpdate s.heap i (fun t => Task.started (Task.setTaskRunner t)),
          runner := { s.runner with
              tasks := s.runner.tasks ++ [i],
              spawnedThreads := s.runner.spawnedThreads + 1 } } := by
  have hins := insertId_append hlt
  simp only [startAndRun, Sys.start, Sys.threadStarted, ha, hins,
    Bool.not_true, Bool.false_eq_true, if_false]
  rw [heapUpdate_heapUpdate s.heap i Task.setTaskRunner Task.started
    (fun t => rfl)]

theorem started_taskId (t : Task) : (Task.started t).taskId = t.taskId := by
  unfold Task.started
  split <;> rfl

theorem cancel_taskId (t : Task) : (Task.cancel t).taskId = t.taskId := by
  unfold Task.cancel
  split <;> rfl

theorem finished_taskId (t : Task) : (Task.finished t).taskId = t.taskId := by
  unfold Task.finished
  split <;> rfl

theorem startAll_go (l : List Nat) (s : Sys)
    (ha : s.runner._isActive = true)
    (hgt : ∀ a ∈ l, ∀ y ∈ s.runner.tasks, y < a)
    (hl : List.Pairwise (· < ·) l) :
    l.foldl startAndRun s =
      { s with
          heap := applyToIds s.heap l
            (fun t => Task.started (Task.setTaskRunner t)),
          runner := { s.runner with
              tasks := s.runner.tasks ++ l,
              spawnedThreads := s.runner.spawnedThreads + l.length } } := by
  induction l generalizing s with
  | nil => simp [applyToIds_nil]
  | cons a l ih =>
      have h1 : ∀ y ∈ s.runner.tasks, y < a :=
        hgt a (List.mem_cons_self a l)
      have hal : a ∉ l := fun hmem =>
        absurd ((List.pairwise_cons.mp hl).1 a hmem) (by omega)
      rw [List.foldl_cons, startAndRun_eq s a ha h1, ih]
      · rw [applyToIds_cons_of_update s.heap a l
          (fun t => Task.started (Task.setTaskRunner t))
          (fun t => by rw [started_taskId]; rfl) hal]
        simp [List.append_assoc, Nat.add_assoc, Nat.add_comm 1 l.length]
      · exact ha
      · intro b hb y hy
        rcases List.mem_append.mp hy with hy | hy
        · exact hgt b (List.mem_cons_of_mem a hb) y hy
        · have : y = a := by simpa using hy
          subst this
          exact (List.pairwise_cons.mp hl).1 b hb
      · exact (List.pairwise_cons.mp hl).2

theorem foldl_threadFinish (l : List Nat) (s : Sys) :
    l.foldl Sys.threadFinish s =
      { s with
          heap := l.foldl (fun h i => heapUpdate h i Task.finished) s.heap,
          runner := { s.runner with
              finishingTasks := s.runner.finishingTasks ++ l } } := by
  induction l generalizing s with
  | nil => simp
  | cons a l ih =>
      rw [List.foldl_cons, ih]
      simp [Sys.threadFinish, List.append_assoc]

theorem foldl_removeId (l ts : List Nat) :
    l.foldl removeId ts = ts.filter (fun x => x ∉ l) := by
  induction l generalizing ts with
  | nil => simp
  | cons a l ih =>
      rw [List.foldl_cons]
      show l.foldl removeId (removeId ts a) = _
      rw [ih, removeId, List.filter_filter]
      apply List.filter_congr
      intro x _
      by_cases hx : x = a <;> simp [hx]

theorem cancelScenario_eq (n : Nat) :
    cancelScenario n =
      { heap := (List.range n).map drainedTask,
        runner := { _isActive := true, tasks := [], finishingTasks := [],
                    threadControllerShouldExit := false, spawnedThreads := n },
        globals := Globals.init } := by
  have hrange : List.Pairwise (· < ·) (List.range n) := List.pairwise_lt_range n
  have hnd : (List.range n).Nodup := List.nodup_range n
  unfold cancelScenario
  rw [startAll_go (List.range n) (initSys n) rfl
    (by intro a _ y hy; simp [initSys, TaskRunner.new] at hy) hrange]
  simp only [initSys, TaskRunner.new, Globals.init, List.nil_append,
    Nat.zero_add, List.length_range,
    applyToIds_range_map Task.new (fun i => rfl)]
  unfold Sys.cancelAll
  simp only
  rw [foldl_heapUpdate_eq_applyToIds Task.cancel cancel_taskId (List.range n) hnd,
    applyToIds_range_map (fun i => Task.started (Task.setTaskRunner (Task.new i)))
      (fun i => rfl)]
  rw [foldl_threadFinish]
  simp only [List.nil_append]
  rw [foldl_heapUpdate_eq_applyToIds Task.finished finished_taskId (List.range n) hnd,
    applyToIds_range_map
      (fun i => Task.cancel (Task.started (Task.setTaskRunner (Task.new i))))
      (fun i => rfl)]
  unfold Sys.reap
  simp only
  rw [foldl_removeId]
  have hfil : (List.range n).filter (fun x => decide (x ∉ List.range n)) = [] := by
    simp
  rw [hfil]
  congr 1

/-- C1 counterexample: starting three cooperative polling tasks, calling
`cancelAll()` and then `awaitAll()` leaves every task in terminal state
`Finished`, not `Canceled` — the worker-thread trampoline installed by
`start` always calls `finished()` after `action()` returns, and nothing in
the runner ever calls `canceled()`. -/
theorem cancelAll_awaitAll_reports_finished_not_canceled :
    heapFind (cancelScenario 3).heap 0 = some (drainedTask 0)
    ∧ heapFind (cancelScenario 3).heap 1 = some (drainedTask 1)
    ∧ heapFind (cancelScenario 3).heap 2 = some (drainedTask 2)
    ∧ (drainedTask 0).getState = State.Finished
    ∧ State.Finished ≠ State.Canceled := by
  decide

/-- C1 amended: for every `n`, registering and starting `n` cooperative
polling tasks, then calling `cancelAll()` followed by `awaitAll()`, results
in every one of the `n` tasks reaching a terminal state — `Finished`, with
its cancellation flag set — and the live set draining so `awaitAll()`
returns. -/
theorem cancelAll_awaitAll_drains_all_finished (n : Nat) :
    (cancelScenario n).heap = (List.range n).map drainedTask
    ∧ Sys.awaitAllReturns (cancelScenario n) = true
    ∧ (∀ t ∈ (cancelScenario n).heap,
        t.getState = State.Finished ∧ t.shouldCancel = true) := by
  rw [cancelScenario_eq]
  refine ⟨rfl, rfl, ?_⟩
  intro t ht
  rcases List.mem_map.mp ht with ⟨i, _, rfl⟩
  exact ⟨rfl, rfl⟩

theorem cancelAll_awaitAll_drains_all_finished_witness :
    (cancelScenario 2).heap = (List.range 2).map drainedTask
    ∧ Sys.awaitAllReturns (cancelScenario 2) = true
    ∧ ((drainedTask 0).getState = State.Finished
        ∧ (drainedTask 0).shouldCancel = true) :=
  ⟨(cancelAll_awaitAll_drains_all_finished 2).1,
   (cancelAll_awaitAll_drains_all_finished 2).2.1,
   (cancelAll_awaitAll_drains_all_finished 2).2.2 (drainedTask 0) (by decide)⟩

theorem mkTasks_bounds (n : Nat) :
    ∀ (c : Nat), ∀ t ∈ mkTasks c n, c ≤ t.taskId ∧ t.taskId < c + n := by
  induction n with
  | zero => intro c t ht; simp [mkTasks] at ht
  | succ n ih =>
      intro c t ht
      rcases ht with _ | ⟨_, ht⟩
      · simp only [Task.new]
        omega
      · have := ih (c + 1) t ht
        omega

theorem mkTasks_pairwise (n : Nat) :
    ∀ (c : Nat), List.Pairwise (fun a b => a.taskId < b.taskId) (mkTasks c n) := by
  induction n with
  | zero => intro c; simp [mkTasks]
  | succ n ih =>
      intro c
      rw [mkTasks, List.pairwise_cons]
      refine ⟨?_, ih (c + 1)⟩
      intro b hb
      have := mkTasks_bounds n (c + 1) b hb
      simp [Task.new]
      omega

theorem insertId_mem {l : List Nat} {i : Nat} {l2 : List Nat}
    (h : insertId l i = some l2) : ∀ y ∈ l2, y ∈ l ∨ y = i := by
  induction l generalizing l2 with
  | nil =>
      simp [insertId] at h
      subst h
      simp
  | cons x xs ih =>
      rw [insertId] at h
      by_cases h1 : i < x
      · rw [if_pos h1] at h
        injection h with h
        subst h
        intro y hy
        rcases hy with _ | ⟨_, hy⟩
        · right; rfl
        · left; exact hy
      · rw [if_neg h1] at h
        by_cases h2 : x < i
        · rw [if_pos h2] at h
          rcases hmap : insertId xs i with _ | l3
          · rw [hmap] at h; simp at h
          · rw [hmap] at h
            simp at h
            subst h
            intro y hy
            rcases hy with _ | ⟨_, hy⟩
            · left; exact List.mem_cons_self x xs
            · rcases ih hmap y hy with hm | hm
              · left; exact List.mem_cons_of_mem x hm
              · right; exact hm
        · rw [if_neg h2] at h
          simp at h

theorem insertId_sorted {l : List Nat} {i : Nat} {l2 : List Nat}
    (hs : List.Pairwise (· < ·) l) (h : insertId l i = some l2) :
    List.Pairwise (· < ·) l2 := by
  induction l generalizing l2 with
  | nil =>
      simp [insertId] at h
      subst h
      simp
  | cons x xs ih =>
      have hx : ∀ y ∈ xs, x < y := (List.pairwise_cons.mp hs).1
      have hxs : List.Pairwise (· < ·) xs := (List.pairwise_cons.mp hs).2
      rw [insertId] at h
      by_cases h1 : i < x
      · rw [if_pos h1] at h
        injection h with h
        subst h
        rw [List.pairwise_cons]
        refine ⟨?_, hs⟩
        intro y hy
        rcases hy with _ | ⟨_, hy⟩
        · exact h1
        · exact Nat.lt_trans h1 (hx y hy)
      · rw [if_neg h1] at h
        by_cases h2 : x < i
        · rw [if_pos h2] at h
          rcases hmap : insertId xs i with _ | l3
          · rw [hmap] at h; simp at h
          · rw [hmap] at h
            simp at h
            subst h
            rw [List.pairwise_cons]
            refine ⟨?_, ih hxs hmap⟩
            intro y hy
            rcases insertId_mem hmap y hy with hm | hm
            · exact hx y hm
            · subst hm; exact h2
        · rw [if_neg h2] at h
          simp at h

/-- C9: task ids come from one monotonically increasing counter — the `k`-th
of `n` tasks constructed while the counter holds `c` gets id `c + k`, so ids
are strictly increasing in construction order, all distinct, and drawn from
the half-open segment `[c, c + n)` (never reused once the counter passes
them) — and the runner's live set, ordered by `taskComparator`
(`taskId <`), stays strictly sorted by id across insertions. -/
theorem task_ids_unique_and_live_set_ordered (c n i : Nat) (l l2 : List Nat)
    (hs : List.Pairwise (· < ·) l) (hins : insertId l i = some l2) :
    List.Pairwise (fun a b => a.taskId < b.taskId) (mkTasks c n)
    ∧ (∀ t ∈ mkTasks c n, c ≤ t.taskId ∧ t.taskId < c + n)
    ∧ List.Pairwise (· < ·) l2 :=
  ⟨mkTasks_pairwise n c, mkTasks_bounds n c, insertId_sorted hs hins⟩

theorem task_ids_unique_and_live_set_ordered_witness :
    List.Pairwise (fun a b => a.taskId < b.taskId) (mkTasks 0 3)
    ∧ (0 ≤ (Task.new 1).taskId ∧ (Task.new 1).taskId < 0 + 3)
    ∧ List.Pairwise (· < ·) [0, 1, 2] :=
  ⟨(task_ids_unique_and_live_set_ordered 0 3 1 [0, 2] [0, 1, 2]
      (by decide) (by decide)).1,
   (task_ids_unique_and_live_set_ordered 0 3 1 [0, 2] [0, 1, 2]
      (by decide) (by decide)).2.1 (Task.new 1) (by decide),
   (task_ids_unique_and_live_set_ordered 0 3 1 [0, 2] [0, 1, 2]
      (by decide) (by decide)).2.2⟩
